import Mathlib

/-!
Verification development for the field-summary query module (`src/queries.ts`).

The module is embedded shallowly:
* JavaScript runtime values that flow through the untyped (`any`) result cells
  are modelled by `JSVal` (finite numbers as exact rationals, `NaN`, strings,
  `null`, `undefined`).  IEEE-754 rounding is not modelled: arithmetic on
  finite numbers is exact rational arithmetic.
* `async` functions that can reject are modelled with `Except String`.
* The module-level mutable `cache` object is modelled by explicit state
  passing: an association list from keys to values, threaded through
  `localCache`.
* Queries sent to the external execution collaborator are reified as
  `QueryRequest` values; the collaborator's responses are inputs.
-/

/-- A JavaScript runtime value as it appears in the untyped result cells.
`num` holds a finite number (modelled as an exact rational), `nan` is the
number `NaN` (`typeof NaN == "number"`). -/
inductive JSVal where
  | num (q : ℚ)
  | nan
  | str (s : String)
  | null
  | undef
deriving DecidableEq, Repr, Inhabited

/-- JavaScript truthiness: `0`, `NaN`, `""`, `null` and `undefined` are falsy. -/
def truthy : JSVal → Bool
  | .num q => decide (q ≠ 0)
  | .nan => false
  | .str s => decide (s ≠ "")
  | .null => false
  | .undef => false

/-- `typeof v === "number"` (both finite numbers and `NaN`). -/
def isNumberType : JSVal → Bool
  | .num _ => true
  | .nan => true
  | _ => false

/-- JavaScript `ToNumber` coercion as used by the arithmetic operators here.
`null` coerces to `0`, `undefined` to `NaN`.  String-to-number parsing is not
modelled (the cells fed to arithmetic are numeric aggregates or `null`);
nonempty strings are mapped to `NaN`. -/
def toNumber : JSVal → JSVal
  | .num q => .num q
  | .nan => .nan
  | .null => .num 0
  | .undef => .nan
  | .str s => if s = "" then .num 0 else .nan

/-- Numeric binary operator with `ToNumber` coercion and `NaN` propagation. -/
def jsBin (f : ℚ → ℚ → ℚ) (x y : JSVal) : JSVal :=
  match toNumber x, toNumber y with
  | .num a, .num b => .num (f a b)
  | _, _ => .nan

/-- JavaScript `+` restricted to its numeric behaviour (the operands reaching
it in this module are numbers; string concatenation is not modelled). -/
def jsAdd : JSVal → JSVal → JSVal := jsBin (fun a b => a + b)

/-- JavaScript `-`. -/
def jsSub : JSVal → JSVal → JSVal := jsBin (fun a b => a - b)

/-- JavaScript `*`. -/
def jsMul : JSVal → JSVal → JSVal := jsBin (fun a b => a * b)

/-- `Math.abs`. -/
def jsAbsV (v : JSVal) : JSVal :=
  match toNumber v with
  | .num a => .num |a|
  | _ => .nan

/-- Division by the constant bin count 20 (`range / binCount`). -/
def jsDiv20 (v : JSVal) : JSVal :=
  match toNumber v with
  | .num a => .num (a / 20)
  | _ => .nan

/-- Unary `+` applied to a possibly-`undefined` value (`+data[0][1].n`):
`+undefined` is `NaN`, a number is unchanged. -/
def jsUnaryPlus : Option JSVal → JSVal
  | some v => toNumber v
  | none => .nan

/-- JavaScript loose equality `v == i` between a result-cell value and a bin
index.  `null == 0`, `undefined == 0` and `NaN == i` are all `false` in
JavaScript; numeric-string coercion is not modelled (bin cells are numbers or
`null`). -/
def looseEqNat (v : JSVal) (i : ℕ) : Bool :=
  match v with
  | .num q => decide (q = (i : ℚ))
  | _ => false

/-- Digits of the fractional part `n / den` (with `0 ≤ n < den`), most
significant first, stopping at a zero remainder or when the fuel runs out
(truncation). -/
def fracDigitsAux : ℕ → ℕ → ℕ → List Char
  | 0, _, _ => []
  | _, 0, _ => []
  | fuel + 1, n, den => Char.ofNat (48 + (n * 10) / den) :: fracDigitsAux fuel ((n * 10) % den) den

/-- Insert a thousands separator after every three characters of a reversed
digit list. -/
def groupChunks : List Char → List Char
  | a :: b :: c :: d :: rest => a :: b :: c :: ',' :: groupChunks (d :: rest)
  | l => l

/-- Decimal rendering of a natural number with `,` thousands separators. -/
def natLocale (n : ℕ) : String :=
  String.mk (groupChunks (toString n).data.reverse).reverse

/-- `Number.prototype.toLocaleString` on an exact rational, default locale:
grouped integer part; at most three fraction digits (the model truncates
where JavaScript rounds — no claim depends on fractional renderings). -/
def ratLocale (q : ℚ) : String :=
  if q.den = 1 then
    (if q.num < 0 then "-" ++ natLocale q.num.natAbs else natLocale q.num.natAbs)
  else
    (if q < 0 then "-" else "")
      ++ natLocale |q|.floor.toNat
      ++ "." ++ String.mk (fracDigitsAux 3 (|q| - |q|.floor).num.toNat (|q| - |q|.floor).den)

/-- Plain textual coercion of a rational, mirroring `String(number)` for the
values that occur here: integers print without separators, non-integers as a
(truncated) decimal expansion. -/
def ratToPlainString (q : ℚ) : String :=
  if q.den = 1 then toString q.num
  else
    (if q < 0 then "-" else "")
      ++ toString |q|.floor.toNat
      ++ "." ++ String.mk (fracDigitsAux 17 (|q| - |q|.floor).num.toNat (|q| - |q|.floor).den)

/-- Template-literal coercion of a value (`` `${d.value}` ``). -/
def jsValToString : JSVal → String
  | .num q => ratToPlainString q
  | .nan => "NaN"
  | .str s => s
  | .null => "null"
  | .undef => "undefined"

/-- `v.toLocaleString()`.  `none` models the `TypeError` thrown when the
receiver is `null` or `undefined`. -/
def jsToLocaleStrOpt : JSVal → Option String
  | .num q => some (ratLocale q)
  | .nan => some "NaN"
  | .str s => some s
  | .null => none
  | .undef => none

/-- One hyperlink attached to a result cell. -/
structure Link where
  url : Option String
deriving DecidableEq, Repr

/-- One raw result cell from the query collaborator
(`{value, rendered?, links?}`). -/
structure RawCell where
  value : JSVal := .undef
  rendered : Option String := none
  links : Option (List Link) := none
deriving DecidableEq, Repr

/-- One display cell (`SimpleDatum`).  The TypeScript interface declares
`v: string`, but at runtime the distribution grid can store a raw falsy value
in `v` (see `distCell`), so `v` is modelled as a `JSVal`. -/
structure SimpleDatum where
  v : JSVal
  l : Option String := none
  n : Option JSVal := none
deriving DecidableEq, Repr

/-- Column alignment. -/
inductive Align where
  | left
  | right
deriving DecidableEq, Repr

/-- One histogram bin (`{value, min, max}`).  `value` is stored raw from the
response row; the bounds are computed numbers. -/
structure HBin where
  value : JSVal
  min : JSVal
  max : JSVal
deriving DecidableEq, Repr

instance : Inhabited HBin := ⟨⟨.num 0, .num 0, .num 0⟩⟩

/-- `Histogram`. -/
structure Histogram where
  data : List HBin
deriving DecidableEq, Repr

/-- `SimpleResult`. -/
structure SimpleResult where
  align : List Align
  data : List (List SimpleDatum)
  max : List (Option JSVal)
  aux : Option String := none
  histogram : Option Histogram := none
deriving DecidableEq, Repr

/-- `formatData`: normalize one raw result cell into a display datum.
`link` is the source's short-circuit chain `d.links && d.links[0] && d.links[0].url`;
`v` is `d.rendered || String(d.value)` (an empty rendered string is falsy and
falls through to the coercion); `n` is `typeof d.value === "number" ? d.value : undefined`. -/
def formatData (d : RawCell) : SimpleDatum :=
  let link : Option String :=
    match d.links with
    | some (lk :: _) => lk.url
    | _ => none
  let vstr : JSVal :=
    match d.rendered with
    | some s => if s = "" then .str (jsValToString d.value) else .str s
    | none => .str (jsValToString d.value)
  let number : Option JSVal := if isNumberType d.value then some d.value else none
  { v := vstr, l := link, n := number }

/-- The attributes of `ILookmlModel` consumed by the module. -/
structure LookmlModel where
  name : String
deriving DecidableEq, Repr

/-- The attributes of `ILookmlModelExploreField` consumed by the module.  The
optional TypeScript fields are `Option`s; `category` and `type` are compared
with string literals in the source. -/
structure ExploreField where
  name : String
  label_short : Option String := none
  view_label : Option String := none
  category : Option String := none
  type : Option String := none
deriving DecidableEq, Repr

/-- `explore.fields` (only the measure list is consumed). -/
structure ExploreFields where
  measures : List ExploreField
deriving DecidableEq, Repr

/-- The attributes of `ILookmlModelExplore` consumed by the module. -/
structure Explore where
  name : String
  fields : ExploreFields
deriving DecidableEq, Repr

/-- `countFieldForField`: first measure whose `label_short` is strictly equal
to `"Count"` and whose `view_label` is (loosely) equal to the target field's
`view_label`.  Loose equality on two optional strings agrees with `Option`
equality (`undefined == undefined` is `true`, `undefined == "x"` is `false`). -/
def countFieldForField (explore : Explore) (field : ExploreField) : Option ExploreField :=
  (explore.fields.measures.filter
    (fun f => f.label_short == some "Count" && f.view_label == field.view_label)).head?

/-- `canGetTopValues`. -/
def canGetTopValues (model : LookmlModel) (explore : Explore) (field : ExploreField) : Bool :=
  field.category == some "dimension" && (countFieldForField explore field).isSome

/-- `canGetDistribution`. -/
def canGetDistribution (model : LookmlModel) (explore : Explore) (field : ExploreField) : Bool :=
  field.type == some "number" && field.category == some "dimension"

/-- An aggregate query request sent to `sdk.run_inline_query`, reified.  The
source serializes `dynamic_fields` with `JSON.stringify`; the model keeps
them structured in `DynamicFields`. -/
inductive DynamicFields where
  /-- The min/max/average measure triple derived from `basedOn`. -/
  | statsMeasures (basedOn : String)
  /-- The derived `bin` dimension with its textual expression. -/
  | binDimension (expression : String)
deriving DecidableEq, Repr

/-- The body of one `run_inline_query` call. -/
structure QueryRequest where
  resultFormat : String := "json_detail"
  limit : Option ℕ := none
  total : Bool := false
  model : String
  view : String
  fields : List String
  sorts : List String := []
  dynamicFields : Option DynamicFields := none
deriving DecidableEq, Repr

/-- The per-process mutable `cache` object, modelled as an association list
threaded through `localCache` (newest binding first; lookup sees the newest). -/
def getCached {T : Type} (c : List (String × T)) (key : String) : Option T :=
  c.lookup key

/-- The shared miss path of `localCache`: run the getter; on resolution store
the value under `key` (the cache is unchanged if the getter rejects, since
the assignment `cache[key] = await getter()` never executes).  The middle
component counts how many times the getter was invoked by this call. -/
def cacheMissRun {T : Type} (c : List (String × T)) (key : String)
    (getter : Unit → Except String T) : List (String × T) × ℕ × Except String T :=
  match getter () with
  | .error er => (c, 1, .error er)
  | .ok v => ((key, v) :: c, 1, .ok v)

/-- `localCache`: `if (!cache[key]) { cache[key] = await getter() } return cache[key]`.
The test is JavaScript truthiness of the stored value, supplied as `truthyT`
(for the `SimpleResult` values this program stores, every value is a truthy
object).  Returns the updated cache, the number of getter invocations, and
the outcome. -/
def localCache {T : Type} (truthyT : T → Bool) (c : List (String × T)) (key : String)
    (getter : Unit → Except String T) : List (String × T) × ℕ × Except String T :=
  match c.lookup key with
  | some v => if truthyT v then (c, 0, .ok v) else cacheMissRun c key getter
  | none => cacheMissRun c key getter

/-- Cache values in this program are `SimpleResult` records; a JavaScript
object is always truthy. -/
def simpleResultTruthy : SimpleResult → Bool := fun _ => true

/-- Outcome of two calls to `localCache` for the same key under one schedule
of the single-threaded event loop. -/
structure TwoCallOutcome (T : Type) where
  cache : List (String × T)
  invocations : ℕ
  ret1 : T
  ret2 : T
deriving DecidableEq, Repr

/-- Two concurrent `localCache` calls for the same key, under the overlapped
schedule in which both synchronous prefixes (the `!cache[key]` test and, on a
miss, the call that starts the getter) run before either resolution stores its
value.  On a miss both getters are invoked; caller 1's store and read happen
at its resumption, then caller 2's, so caller 2's value overwrites caller 1's
and each caller returns its own getter's value.  (Getters are total here:
the schedule models successful computations.) -/
def twoCallsOverlapped {T : Type} (truthyT : T → Bool) (c : List (String × T)) (key : String)
    (g1 g2 : Unit → T) : TwoCallOutcome T :=
  match c.lookup key with
  | some v =>
    if truthyT v then ⟨c, 0, v, v⟩
    else ⟨(key, g2 ()) :: (key, g1 ()) :: c, 2, g1 (), g2 ()⟩
  | none => ⟨(key, g2 ()) :: (key, g1 ()) :: c, 2, g1 (), g2 ()⟩

/-- One response row of the top-values query, projected onto the two
requested fields (`row[field.name]`, `row[countField.name]`). -/
structure TVRow where
  fieldCell : RawCell
  countCell : RawCell
deriving DecidableEq, Repr

/-- The top-values query response: `qr.data` and
`qr.totals_data[countField.name].value`. -/
structure TVResponse where
  rows : List TVRow
  totalsCountValue : JSVal
deriving DecidableEq, Repr

/-- The query body built by `getTopValues` once the companion count field has
been resolved. -/
def topValuesQueryFor (model : LookmlModel) (explore : Explore)
    (field countField : ExploreField) : QueryRequest :=
  { resultFormat := "json_detail"
    limit := some 10
    total := true
    model := model.name
    view := explore.name
    fields := [field.name, countField.name]
    sorts := [countField.name ++ " desc"]
    dynamicFields := none }

/-- Query-construction stage of `getTopValues`.  The source applies the
non-null assertion `countFieldForField(...)!`; when no companion count field
exists, reading `.name` off `undefined` throws a `TypeError` while the query
body is being built, i.e. before any query is issued. -/
def getTopValuesQuery (model : LookmlModel) (explore : Explore)
    (field : ExploreField) : Except String QueryRequest :=
  match countFieldForField explore field with
  | none => .error "TypeError: cannot read property name of undefined"
  | some cf => .ok (topValuesQueryFor model explore field cf)

/-- Result-interpretation stage of `getTopValues`.  `data[0][1]` is read
without a guard, so an empty row list throws; `totals.value.toLocaleString()`
throws when the totals value is `null` or `undefined`. -/
def getTopValuesResult (resp : TVResponse) : Except String SimpleResult :=
  match resp.rows with
  | [] => .error "TypeError: cannot read index 1 of undefined"
  | r0 :: _ =>
    match jsToLocaleStrOpt resp.totalsCountValue with
    | none => .error "TypeError: cannot read toLocaleString of a nullish totals value"
    | some ts =>
      .ok { align := [.left, .right]
            data := resp.rows.map (fun r => [formatData r.fieldCell, formatData r.countCell])
            max := [none, some (jsUnaryPlus (formatData r0.countCell).n)]
            aux := some (ts ++ " rows")
            histogram := none }

/-- `getTopValues` end to end against a given collaborator response. -/
def getTopValuesFull (model : LookmlModel) (explore : Explore) (field : ExploreField)
    (resp : TVResponse) : Except String SimpleResult :=
  match getTopValuesQuery model explore field with
  | .error er => .error er
  | .ok _ => getTopValuesResult resp

/-- The single row of the distribution stats query
(`qr.data[0].{min,max,average}.value`). -/
structure StatsRow where
  minv : JSVal
  maxv : JSVal
  avgv : JSVal
deriving DecidableEq, Repr

/-- One response row of the per-bin count query
(`row.bin.value`, `row[countField.name].value`). -/
structure HistRow where
  binValue : JSVal
  countValue : JSVal
deriving DecidableEq, Repr

/-- The stats query body built by `getDistribution` (limit 10, three dynamic
measures based on the field). -/
def statsQueryFor (model : LookmlModel) (explore : Explore) (field : ExploreField) : QueryRequest :=
  { resultFormat := "json_detail"
    limit := some 10
    model := model.name
    view := explore.name
    fields := ["min", "max", "average"]
    dynamicFields := some (.statsMeasures field.name) }

/-- The `for (let i = 0; i < binCount; i++) bins.push([...])` loop: bins from
index `i`, `fuel` of them, each spanning
`[min.value + binSize*i, min.value + binSize*(i+1)]`. -/
def binsFrom (minv binSize : JSVal) : ℕ → ℕ → List (JSVal × JSVal)
  | _, 0 => []
  | i, fuel + 1 =>
    (jsAdd minv (jsMul binSize (.num (i : ℚ))), jsAdd minv (jsMul binSize (.num ((i : ℚ) + 1))))
      :: binsFrom minv binSize (i + 1) fuel

/-- The 20 bin bounds: `binSize = Math.abs(max.value - min.value) / 20`. -/
def binBounds (minv maxv : JSVal) : List (JSVal × JSVal) :=
  binsFrom minv (jsDiv20 (jsAbsV (jsSub maxv minv))) 0 20

/-- One clause `if(ref <= upperBound, i, null)` of the bin expression. -/
def binClause (ref : String) (mx : JSVal) (i : ℕ) : String :=
  "if(" ++ ref ++ " <= " ++ jsValToString mx ++ ", " ++ toString i ++ ", null)"

/-- The clauses for all bins, with their indices. -/
def binClausesAux (ref : String) : List (JSVal × JSVal) → ℕ → List String
  | [], _ => []
  | (_, mx) :: rest, i => binClause ref mx i :: binClausesAux ref rest (i + 1)

/-- `coalesce(...)` over the per-bin conditionals; the reference is the LookML
interpolation of the field name in braces. -/
def binExpression (fieldName : String) (bins : List (JSVal × JSVal)) : String :=
  "coalesce("
    ++ String.intercalate ",\n" (binClausesAux ("$\x7b" ++ fieldName ++ "\x7d") bins 0)
    ++ ")"

/-- The per-bin count query body (limit 10, derived `bin` dimension). -/
def histQueryFor (model : LookmlModel) (explore : Explore) (countField : ExploreField)
    (expression : String) : QueryRequest :=
  { resultFormat := "json_detail"
    limit := some 10
    model := model.name
    view := explore.name
    fields := ["bin", countField.name]
    dynamicFields := some (.binDimension expression) }

/-- `histogramQR.data.filter(d => d.bin.value == i)[0]`, then the row's count
value, or `0` when no returned row matches the bin index. -/
def histCount (rows : List HistRow) (i : ℕ) : JSVal :=
  match (rows.filter (fun r => looseEqNat r.binValue i)).head? with
  | some r => r.countValue
  | none => .num 0

/-- `bins.map(([min, max], i) => ...)`: histogram bins with their counts,
starting at index `i`. -/
def histBinsAux (rows : List HistRow) : List (JSVal × JSVal) → ℕ → List HBin
  | [], _ => []
  | (mn, mx) :: rest, i => ⟨histCount rows i, mn, mx⟩ :: histBinsAux rows rest (i + 1)

/-- The grid cell `{ v: x && x.toLocaleString() }` of the distribution
result: the localized string when the value is truthy, otherwise the falsy
value itself. -/
def distCell (x : JSVal) : SimpleDatum :=
  { v := if truthy x then .str ((jsToLocaleStrOpt x).getD "") else x }

/-- A run of `getDistribution`: the stats query it issued, the per-bin count
query (absent when the histogram step was skipped), and the result. -/
structure DistTrace where
  statsQuery : QueryRequest
  histQuery : Option QueryRequest
  result : SimpleResult
deriving DecidableEq, Repr

/-- `getDistribution` against the rows returned for its two queries.  Errors:
an empty stats response throws at `qr.data[0].min`; a truthy minimum with no
companion count field throws at `countField.name` while building the per-bin
query. -/
def getDistribution (model : LookmlModel) (explore : Explore) (field : ExploreField)
    (statsRows : List StatsRow) (histRows : List HistRow) : Except String DistTrace :=
  match statsRows with
  | [] => .error "TypeError: cannot read min of undefined"
  | row :: _ =>
    let bins := binBounds row.minv row.maxv
    let grid : List (List SimpleDatum) :=
      [[{ v := .str "Min" }, distCell row.minv],
       [{ v := .str "Max" }, distCell row.maxv],
       [{ v := .str "Average" }, distCell row.avgv]]
    if truthy row.minv then
      match countFieldForField explore field with
      | none => .error "TypeError: cannot read property name of undefined"
      | some cf =>
        .ok { statsQuery := statsQueryFor model explore field
              histQuery := some (histQueryFor model explore cf (binExpression field.name bins))
              result := { align := [.left, .right]
                          data := grid
                          max := [none, none]
                          aux := none
                          histogram := some ⟨histBinsAux histRows bins 0⟩ } }
    else
      .ok { statsQuery := statsQueryFor model explore field
            histQuery := none
            result := { align := [.left, .right]
                        data := grid
                        max := [none, none]
                        aux := none
                        histogram := none } }

/-- The request kind (`"Values" | "Distribution"`, a closed union in the
source's types). -/
inductive ChartKind where
  | Values
  | Distribution
deriving DecidableEq, Repr

/-- A `QueryChartType` request. -/
structure ChartRequest where
  kind : ChartKind
  model : LookmlModel
  explore : Explore
  field : ExploreField
deriving DecidableEq, Repr

/-- The cache key `JSON.stringify(type)`: a deterministic serialization of
the request (the model serializes the consumed attributes; equal requests get
equal keys). -/
def serializeRequest (r : ChartRequest) : String :=
  (match r.kind with
    | .Values => "Values"
    | .Distribution => "Distribution")
    ++ "|" ++ r.model.name ++ "|" ++ r.explore.name ++ "|" ++ r.field.name

/-- `runChartQuery`: dispatch on the request kind, each path memoized through
`localCache` under the serialized request key. -/
def runChartQuery (req : ChartRequest) (c : List (String × SimpleResult))
    (tvResp : TVResponse) (statsRows : List StatsRow) (histRows : List HistRow) :
    List (String × SimpleResult) × ℕ × Except String SimpleResult :=
  match req.kind with
  | .Values =>
    localCache simpleResultTruthy c (serializeRequest req)
      (fun _ => getTopValuesFull req.model req.explore req.field tvResp)
  | .Distribution =>
    localCache simpleResultTruthy c (serializeRequest req)
      (fun _ => (getDistribution req.model req.explore req.field statsRows histRows).map DistTrace.result)

/-! Sample metadata used by concrete instances. -/

/-- A sample model. -/
def sampleModel : LookmlModel := { name := "thelook" }

/-- A companion count measure in view `Orders`. -/
def sampleCountMeasure : ExploreField :=
  { name := "orders.count", label_short := some "Count", view_label := some "Orders"
    category := some "measure", type := some "count" }

/-- A sample explore containing the count measure. -/
def sampleExplore : Explore := { name := "orders", fields := { measures := [sampleCountMeasure] } }

/-- A numeric dimension in view `Orders`. -/
def samplePriceField : ExploreField :=
  { name := "orders.price", label_short := some "Price", view_label := some "Orders"
    category := some "dimension", type := some "number" }

/-- A numeric measure in view `Orders` (wrong category for a Values request). -/
def sampleMeasureField : ExploreField :=
  { name := "orders.total", label_short := some "Total", view_label := some "Orders"
    category := some "measure", type := some "number" }

/-- An explore with no companion count measure. -/
def emptyExplore : Explore := { name := "orders", fields := { measures := [] } }

/-- A minimal `SimpleResult` value, for cache instances. -/
def emptyResult : SimpleResult := { align := [], data := [], max := [] }

/-! Helper lemmas about the histogram assembly. -/

/-- `binsFrom` produces exactly `fuel` bins. -/
theorem binsFrom_length (mv bs : JSVal) :
    ∀ (fuel i : ℕ), (binsFrom mv bs i fuel).length = fuel := by
  intro fuel
  induction fuel with
  | zero => intro i; rfl
  | succ n ih => intro i; simp [binsFrom, ih]

/-- `histBinsAux` produces one histogram bin per bound pair. -/
theorem histBinsAux_length (rows : List HistRow) :
    ∀ (bins : List (JSVal × JSVal)) (i : ℕ), (histBinsAux rows bins i).length = bins.length := by
  intro bins
  induction bins with
  | nil => intro i; rfl
  | cons p rest ih => intro i; cases p; simp [histBinsAux, ih]

/-- Index `j` of the assembled histogram bins over `binsFrom` bounds. -/
theorem histBins_getD (rows : List HistRow) (mv bs : JSVal) :
    ∀ (fuel i j : ℕ), j < fuel →
      (histBinsAux rows (binsFrom mv bs i fuel) i).getD j default =
        ⟨histCount rows (i + j),
         jsAdd mv (jsMul bs (.num ((i + j : ℕ) : ℚ))),
         jsAdd mv (jsMul bs (.num (((i + j : ℕ) : ℚ) + 1)))⟩ := by
  intro fuel
  induction fuel with
  | zero => intro i j h; exact absurd h (Nat.not_lt_zero j)
  | succ n ih =>
    intro i j h
    cases j with
    | zero => simp [binsFrom, histBinsAux]
    | succ m =>
      have hm : m < n := by omega
      have hnat : (i + 1) + m = i + (m + 1) := by omega
      simp only [binsFrom, histBinsAux, List.getD_cons_succ]
      rw [ih (i + 1) m hm, hnat]

/-- The bin bounds for numeric stats reduce to `binsFrom` over rationals. -/
theorem binBounds_num (a b : ℚ) :
    binBounds (.num a) (.num b) = binsFrom (.num a) (.num (|b - a| / 20)) 0 20 := by
  simp [binBounds, jsSub, jsBin, toNumber, jsAbsV, jsDiv20]

/-- Closed form for index `j` of the histogram assembled from numeric stats. -/
theorem histBins_num_getD (rows : List HistRow) (a b : ℚ) (j : ℕ) (hj : j < 20) :
    (histBinsAux rows (binBounds (.num a) (.num b)) 0).getD j default =
      ⟨histCount rows j,
       .num (a + |b - a| / 20 * j),
       .num (a + |b - a| / 20 * ((j : ℚ) + 1))⟩ := by
  rw [binBounds_num, histBins_getD rows _ _ 20 0 j hj]
  simp [jsAdd, jsMul, jsBin, toNumber, mul_comm]

/-- A bin index matched by no returned row gets count `0`. -/
theorem histCount_eq_zero (rows : List HistRow) (i : ℕ)
    (hnone : ∀ r ∈ rows, looseEqNat r.binValue i = false) : histCount rows i = .num 0 := by
  have hfil : rows.filter (fun r => looseEqNat r.binValue i) = [] := by
    rw [List.filter_eq_nil_iff]
    intro r hr
    simp [hnone r hr]
  rw [histCount, hfil]
  rfl

/-! Claim theorems. -/

/-- Claim C3: `localCache` invokes and stores the computation only when no
entry exists for the key; on a hit it returns the stored entry with zero
invocations; and after a first call for a key has resolved successfully,
a subsequent call (with any computation) returns the identical stored result
without invoking its computation.  Cache values in this program are
`SimpleResult` objects, which are always truthy, so the source's
`!cache[key]` test is exactly key absence. -/
theorem localCache_memoizes (c : List (String × SimpleResult)) (k : String)
    (g g2 : Unit → Except String SimpleResult) (v : SimpleResult) :
    (c.lookup k = some v → localCache simpleResultTruthy c k g = (c, 0, Except.ok v))
    ∧ (c.lookup k = none → g () = Except.ok v →
        localCache simpleResultTruthy c k g = ((k, v) :: c, 1, Except.ok v)
        ∧ localCache simpleResultTruthy ((k, v) :: c) k g2 = ((k, v) :: c, 0, Except.ok v)) := by
  refine ⟨fun h => ?_, fun h hg => ⟨?_, ?_⟩⟩
  · simp [localCache, h, simpleResultTruthy]
  · simp [localCache, h, cacheMissRun, hg]
  · simp [localCache, List.lookup, simpleResultTruthy]

/-- Witness for C3 at a concrete key, cache and computation. -/
theorem localCache_memoizes_witness :
    (([] : List (String × SimpleResult)).lookup "k" = none)
    ∧ ((fun _ : Unit => (Except.ok emptyResult : Except String SimpleResult)) ()
        = Except.ok emptyResult)
    ∧ localCache simpleResultTruthy [] "k" (fun _ => Except.ok emptyResult)
        = ([("k", emptyResult)], 1, Except.ok emptyResult)
    ∧ localCache simpleResultTruthy [("k", emptyResult)] "k" (fun _ => Except.ok emptyResult)
        = ([("k", emptyResult)], 0, Except.ok emptyResult) := by
  have h := (localCache_memoizes [] "k" (fun _ => Except.ok emptyResult)
    (fun _ => Except.ok emptyResult) emptyResult).2 rfl rfl
  exact ⟨rfl, rfl, h.1, h.2⟩

/-- Claim C5: if the computation fails, the assignment `cache[key] = await getter()`
never executes, so the key remains absent from the cache (`getCached` returns
nothing) and a subsequent call for the same key re-invokes its computation. -/
theorem localCache_failure_uncached (c : List (String × SimpleResult)) (k : String)
    (g g2 : Unit → Except String SimpleResult) (er : String)
    (hk : c.lookup k = none) (hg : g () = Except.error er) :
    localCache simpleResultTruthy c k g = (c, 1, Except.error er)
    ∧ getCached c k = none
    ∧ (localCache simpleResultTruthy c k g2).2.1 = 1 := by
  refine ⟨by simp [localCache, hk, cacheMissRun, hg], hk, ?_⟩
  cases hg2 : g2 () <;> simp [localCache, hk, cacheMissRun, hg2]

/-- Witness for C5 at a concrete key, cache and failing computation. -/
theorem localCache_failure_uncached_witness :
    (([] : List (String × SimpleResult)).lookup "k" = none)
    ∧ ((fun _ : Unit => (Except.error "boom" : Except String SimpleResult)) () = Except.error "boom")
    ∧ localCache simpleResultTruthy [] "k" (fun _ => Except.error "boom")
        = ([], 1, Except.error "boom")
    ∧ getCached ([] : List (String × SimpleResult)) "k" = none
    ∧ (localCache simpleResultTruthy [] "k" (fun _ => Except.ok emptyResult)).2.1 = 1 := by
  have h := localCache_failure_uncached [] "k" (fun _ => Except.error "boom")
    (fun _ => Except.ok emptyResult) "boom" rfl rfl
  exact ⟨rfl, rfl, h.1, h.2.1, h.2.2⟩

/-- Claim C9 counterexample: on an empty cache, two concurrent calls for the
same key under the overlapped schedule (both `!cache[key]` tests run before
either store, which is exactly what `cache[key] = await getter()` permits)
invoke the underlying computation twice, not exactly once as claimed. -/
theorem twoCallsOverlapped_double_invocation_cex :
    (twoCallsOverlapped simpleResultTruthy ([] : List (String × SimpleResult)) "k"
        (fun _ => emptyResult) (fun _ => emptyResult)).invocations = 2
    ∧ (twoCallsOverlapped simpleResultTruthy ([] : List (String × SimpleResult)) "k"
        (fun _ => emptyResult) (fun _ => emptyResult)).invocations ≠ 1 := by
  exact ⟨rfl, by decide⟩

/-- Claim C9 (amended): concurrent callers for the same key whose cache checks
both precede the first store each invoke the computation (once per caller, so
duplicate queries are issued) and each observes its own invocation's result;
the computation is skipped only when a truthy entry from a completed earlier
call already exists, in which case both callers observe that stored result. -/
theorem twoCallsOverlapped_schedule_spec {T : Type} (t : T → Bool)
    (c : List (String × T)) (k : String) (g1 g2 : Unit → T) :
    (c.lookup k = none →
      twoCallsOverlapped t c k g1 g2 = ⟨(k, g2 ()) :: (k, g1 ()) :: c, 2, g1 (), g2 ()⟩)
    ∧ (∀ v, c.lookup k = some v → t v = true →
      twoCallsOverlapped t c k g1 g2 = ⟨c, 0, v, v⟩) := by
  constructor
  · intro h; simp [twoCallsOverlapped, h]
  · intro v h ht; simp [twoCallsOverlapped, h, ht]

/-- Witness for the amended C9 at concrete schedules: a miss duplicates the
computation; a pre-existing resolved entry is shared. -/
theorem twoCallsOverlapped_schedule_spec_witness :
    (([] : List (String × SimpleResult)).lookup "k" = none)
    ∧ twoCallsOverlapped simpleResultTruthy ([] : List (String × SimpleResult)) "k"
        (fun _ => emptyResult) (fun _ => emptyResult)
        = ⟨[("k", emptyResult), ("k", emptyResult)], 2, emptyResult, emptyResult⟩
    ∧ ([("k", emptyResult)].lookup "k" = some emptyResult)
    ∧ simpleResultTruthy emptyResult = true
    ∧ twoCallsOverlapped simpleResultTruthy [("k", emptyResult)] "k"
        (fun _ => emptyResult) (fun _ => emptyResult)
        = ⟨[("k", emptyResult)], 0, emptyResult, emptyResult⟩ := by
  refine ⟨rfl, ?_, rfl, rfl, ?_⟩
  · exact (twoCallsOverlapped_schedule_spec simpleResultTruthy [] "k"
      (fun _ => emptyResult) (fun _ => emptyResult)).1 rfl
  · exact (twoCallsOverlapped_schedule_spec simpleResultTruthy [("k", emptyResult)] "k"
      (fun _ => emptyResult) (fun _ => emptyResult)).2 emptyResult rfl rfl

/-- Claim C2: a Top-Values result built from at least one returned row (with a
numeric count in the first row and a numeric grand total) has alignment
`[left, right]`, one two-cell formatted row per returned group, per-column max
`[absent, the first row's numeric count]`, auxiliary caption `<grand total with
thousands separators> rows`, and no histogram. -/
theorem getTopValues_result_shape (r0 : TVRow) (rest : List TVRow) (q0 t : ℚ)
    (hn : r0.countCell.value = JSVal.num q0) :
    getTopValuesResult { rows := r0 :: rest, totalsCountValue := .num t } =
      Except.ok
        { align := [.left, .right]
          data := (r0 :: rest).map (fun r => [formatData r.fieldCell, formatData r.countCell])
          max := [none, some (.num q0)]
          aux := some (ratLocale t ++ " rows")
          histogram := none } := by
  simp [getTopValuesResult, jsToLocaleStrOpt, formatData, isNumberType, hn, jsUnaryPlus, toNumber]

/-- Witness for C2 at the spec's end-to-end scenario: rows
`(Shipped, 120), (Pending, 45)` with grand total `165`. -/
theorem getTopValues_result_shape_witness :
    (TVRow.countCell ⟨{ value := .str "Shipped" }, { value := .num 120 }⟩).value = JSVal.num 120
    ∧ getTopValuesResult
        { rows := [⟨{ value := .str "Shipped" }, { value := .num 120 }⟩,
                   ⟨{ value := .str "Pending" }, { value := .num 45 }⟩]
          totalsCountValue := .num 165 } =
      Except.ok
        { align := [.left, .right]
          data := [[{ v := .str "Shipped" }, { v := .str "120", n := some (.num 120) }],
                   [{ v := .str "Pending" }, { v := .str "45", n := some (.num 45) }]]
          max := [none, some (.num 120)]
          aux := some ("165 rows")
          histogram := none } := by
  refine ⟨rfl, ?_⟩
  exact (getTopValues_result_shape ⟨{ value := .str "Shipped" }, { value := .num 120 }⟩
    [⟨{ value := .str "Pending" }, { value := .num 45 }⟩] 120 165 rfl).trans (by rw [Except.ok.injEq]; decide)

/-- Claim C8 (the code at the failing input): on a Top-Values response with
zero rows the implementation performs the unguarded access `data[0][1]` while
building the per-column max and throws, contradicting the claim that index
access is guarded. -/
theorem getTopValues_empty_rows_throws :
    getTopValuesResult { rows := [], totalsCountValue := .num 165 } =
      Except.error "TypeError: cannot read index 1 of undefined" := rfl

/-- Claim C7 counterexample: for the cell `{value: 5, rendered: ""}` the
pre-rendered string is present, yet `v` is the coerced value `"5"` rather
than the rendered `""` (the source tests truthiness, and `""` is falsy). -/
theorem formatData_empty_rendered_cex :
    (formatData { value := .num 5, rendered := some "", links := none }).v = .str "5"
    ∧ (formatData { value := .num 5, rendered := some "", links := none }).v ≠ .str "" := by
  exact ⟨by decide, by decide⟩

/-- Claim C7 (amended): `formatData` produces `l` = the first link's URL when
a nonempty link list is present and absent otherwise; `v` = the pre-rendered
string when present and nonempty, otherwise the value coerced to text (also
when the rendered string is present but empty); `n` = the raw value iff its
runtime type is numeric.  The function is total, so null/missing values throw
nothing: absence propagates as absent fields. -/
theorem formatData_fields_spec (d : RawCell) :
    (d.links = none → (formatData d).l = none)
    ∧ (d.links = some [] → (formatData d).l = none)
    ∧ (∀ lk rest2, d.links = some (lk :: rest2) → (formatData d).l = lk.url)
    ∧ (∀ s, d.rendered = some s → s ≠ "" → (formatData d).v = .str s)
    ∧ (d.rendered = none → (formatData d).v = .str (jsValToString d.value))
    ∧ (d.rendered = some "" → (formatData d).v = .str (jsValToString d.value))
    ∧ (isNumberType d.value = true → (formatData d).n = some d.value)
    ∧ (isNumberType d.value = false → (formatData d).n = none) := by
  refine ⟨?_, ?_, ?_, ?_, ?_, ?_, ?_, ?_⟩ <;> intros <;> simp_all [formatData]

/-- Witness for the amended C7 at a fully-populated cell and at a null value. -/
theorem formatData_fields_spec_witness :
    (formatData { value := .num 7, rendered := some "7k", links := some [⟨some "https://x"⟩] }).l
        = some "https://x"
    ∧ (formatData { value := .num 7, rendered := some "7k", links := some [⟨some "https://x"⟩] }).v
        = .str "7k"
    ∧ (formatData { value := .num 7, rendered := some "7k", links := some [⟨some "https://x"⟩] }).n
        = some (.num 7)
    ∧ (formatData { value := .null }).v = .str (jsValToString JSVal.null)
    ∧ (formatData { value := .null }).n = none := by
  refine ⟨?_, ?_, ?_, ?_, ?_⟩
  · exact (formatData_fields_spec _).2.2.1 ⟨some "https://x"⟩ [] rfl
  · exact (formatData_fields_spec _).2.2.2.1 "7k" rfl (by decide)
  · exact (formatData_fields_spec _).2.2.2.2.2.2.1 rfl
  · exact (formatData_fields_spec _).2.2.2.2.1 rfl
  · exact (formatData_fields_spec _).2.2.2.2.2.2.2 rfl

/-- Claim C4: a falsy stats minimum (`0`, `null`, ...) makes `getDistribution`
skip the histogram step entirely — no per-bin query is issued and the result
carries no histogram — while still returning the three-row
`Min`/`Max`/`Average` grid with per-column max `[absent, absent]`. -/
theorem getDistribution_falsy_min_skips_histogram (model : LookmlModel) (explore : Explore)
    (field : ExploreField) (mv mx av : JSVal) (rest : List StatsRow) (histRows : List HistRow)
    (hmv : truthy mv = false) :
    getDistribution model explore field (⟨mv, mx, av⟩ :: rest) histRows =
      Except.ok
        { statsQuery := statsQueryFor model explore field
          histQuery := none
          result := { align := [.left, .right]
                      data := [[{ v := .str "Min" }, distCell mv],
                               [{ v := .str "Max" }, distCell mx],
                               [{ v := .str "Average" }, distCell av]]
                      max := [none, none]
                      aux := none
                      histogram := none } } := by
  simp [getDistribution, hmv]

/-- Witness for C4 at `min.value = 0` (and the falsy `0` leaks raw into the
grid's second column, since `0 && 0..toLocaleString()` is `0`). -/
theorem getDistribution_falsy_min_skips_histogram_witness :
    truthy (JSVal.num 0) = false
    ∧ getDistribution sampleModel sampleExplore samplePriceField
        [⟨.num 0, .num 30, .num 20⟩] [] =
      Except.ok
        { statsQuery := statsQueryFor sampleModel sampleExplore samplePriceField
          histQuery := none
          result := { align := [.left, .right]
                      data := [[{ v := .str "Min" }, { v := .num 0 }],
                               [{ v := .str "Max" }, { v := .str "30" }],
                               [{ v := .str "Average" }, { v := .str "20" }]]
                      max := [none, none]
                      aux := none
                      histogram := none } } := by
  refine ⟨by decide, ?_⟩
  exact (getDistribution_falsy_min_skips_histogram sampleModel sampleExplore samplePriceField
    (.num 0) (.num 30) (.num 20) [] [] (by decide)).trans (by rw [Except.ok.injEq]; decide)

/-- Claim C1: whenever the distribution summarizer produces a histogram (the
stats minimum is a nonzero number `a`, the maximum a number `b`, and — as for
any real min/max aggregate pair — `a ≤ b`), it has exactly 20 bins, each bin
`j` spanning `[a + binSize*j, a + binSize*(j+1))` with
`binSize = |b - a| / 20`, the bins in ascending order and contiguous
(`bin[j].max = bin[j+1].min`), the first bin's min equal to `a` and the last
bin's max equal to `b`. -/
theorem getDistribution_histogram_complete (model : LookmlModel) (explore : Explore)
    (field cf : ExploreField) (a b : ℚ) (av : JSVal)
    (rest : List StatsRow) (histRows : List HistRow)
    (hcf : countFieldForField explore field = some cf) (ha : a ≠ 0) (hab : a ≤ b) :
    ∃ h : Histogram,
      (∃ tr : DistTrace,
        getDistribution model explore field (⟨.num a, .num b, av⟩ :: rest) histRows = Except.ok tr
        ∧ tr.result.histogram = some h)
      ∧ h.data.length = 20
      ∧ (∀ j, j < 20 →
          (h.data.getD j default).min = .num (a + |b - a| / 20 * j)
          ∧ (h.data.getD j default).max = .num (a + |b - a| / 20 * ((j : ℚ) + 1)))
      ∧ (∀ j, j + 1 < 20 → (h.data.getD j default).max = (h.data.getD (j + 1) default).min)
      ∧ (∀ j1 j2, j1 ≤ j2 → j2 < 20 → ∃ p q : ℚ,
          (h.data.getD j1 default).min = .num p ∧ (h.data.getD j2 default).min = .num q ∧ p ≤ q)
      ∧ (h.data.getD 0 default).min = .num a
      ∧ (h.data.getD 19 default).max = .num b := by
  have hta : truthy (JSVal.num a) = true := by simp [truthy, ha]
  have hrun : getDistribution model explore field (⟨.num a, .num b, av⟩ :: rest) histRows =
      Except.ok
        { statsQuery := statsQueryFor model explore field
          histQuery := some (histQueryFor model explore cf
            (binExpression field.name (binBounds (.num a) (.num b))))
          result := { align := [.left, .right]
                      data := [[{ v := .str "Min" }, distCell (.num a)],
                               [{ v := .str "Max" }, distCell (.num b)],
                               [{ v := .str "Average" }, distCell av]]
                      max := [none, none]
                      aux := none
                      histogram := some ⟨histBinsAux histRows (binBounds (.num a) (.num b)) 0⟩ } } := by
    simp [getDistribution, hta, hcf]
  have hs : (0 : ℚ) ≤ |b - a| / 20 := by positivity
  refine ⟨⟨histBinsAux histRows (binBounds (.num a) (.num b)) 0⟩, ⟨_, hrun, rfl⟩,
    ?_, ?_, ?_, ?_, ?_, ?_⟩
  · show (histBinsAux histRows (binBounds (.num a) (.num b)) 0).length = 20
    rw [histBinsAux_length, binBounds_num, binsFrom_length]
  · intro j hj
    rw [histBins_num_getD histRows a b j hj]
    exact ⟨rfl, rfl⟩
  · intro j hj
    rw [histBins_num_getD histRows a b j (by omega), histBins_num_getD histRows a b (j + 1) hj]
    push_cast
    ring_nf
  · intro j1 j2 h12 h2
    refine ⟨a + |b - a| / 20 * j1, a + |b - a| / 20 * j2,
      by rw [histBins_num_getD histRows a b j1 (by omega)],
      by rw [histBins_num_getD histRows a b j2 h2], ?_⟩
    have hc : (j1 : ℚ) ≤ (j2 : ℚ) := by exact_mod_cast h12
    nlinarith
  · rw [histBins_num_getD histRows a b 0 (by omega)]
    norm_num
  · rw [histBins_num_getD histRows a b 19 (by omega)]
    rw [abs_of_nonneg (by linarith : (0 : ℚ) ≤ b - a)]
    norm_num

/-- Witness for C1 at the spec's end-to-end distribution scenario:
min 10, max 30 (binSize 1), a count field present. -/
theorem getDistribution_histogram_complete_witness :
    countFieldForField sampleExplore samplePriceField = some sampleCountMeasure
    ∧ (10 : ℚ) ≠ 0
    ∧ (10 : ℚ) ≤ 30
    ∧ (∃ h : Histogram,
        (∃ tr : DistTrace,
          getDistribution sampleModel sampleExplore samplePriceField
              [⟨.num 10, .num 30, .num 20⟩] [] = Except.ok tr
          ∧ tr.result.histogram = some h)
        ∧ h.data.length = 20
        ∧ (∀ j, j < 20 →
            (h.data.getD j default).min = .num (10 + |(30 : ℚ) - 10| / 20 * j)
            ∧ (h.data.getD j default).max = .num (10 + |(30 : ℚ) - 10| / 20 * ((j : ℚ) + 1)))
        ∧ (∀ j, j + 1 < 20 → (h.data.getD j default).max = (h.data.getD (j + 1) default).min)
        ∧ (∀ j1 j2, j1 ≤ j2 → j2 < 20 → ∃ p q : ℚ,
            (h.data.getD j1 default).min = .num p ∧ (h.data.getD j2 default).min = .num q ∧ p ≤ q)
        ∧ (h.data.getD 0 default).min = .num 10
        ∧ (h.data.getD 19 default).max = .num 30) := by
  exact ⟨by decide, by norm_num, by norm_num,
    getDistribution_histogram_complete sampleModel sampleExplore samplePriceField
      sampleCountMeasure 10 30 (.num 20) [] [] (by decide) (by norm_num) (by norm_num)⟩

/-- Claim C10: both aggregate queries constructed by `getDistribution` carry a
fixed row limit of 10, and in the assembled 20-bin histogram every bin index
matched by none of the (at most 10) returned rows is assigned count 0. -/
theorem getDistribution_limit_ten_zero_fill (model : LookmlModel) (explore : Explore)
    (field cf : ExploreField) (a : ℚ) (mx av : JSVal)
    (rest : List StatsRow) (histRows : List HistRow)
    (hcf : countFieldForField explore field = some cf) (ha : a ≠ 0) :
    ∃ tr : DistTrace,
      getDistribution model explore field (⟨.num a, mx, av⟩ :: rest) histRows = Except.ok tr
      ∧ tr.statsQuery.limit = some 10
      ∧ (∃ q, tr.histQuery = some q ∧ q.limit = some 10)
      ∧ ∀ h : Histogram, tr.result.histogram = some h →
          ∀ j, j < 20 → (∀ r ∈ histRows, looseEqNat r.binValue j = false) →
            (h.data.getD j default).value = .num 0 := by
  have hta : truthy (JSVal.num a) = true := by simp [truthy, ha]
  have hrun : getDistribution model explore field (⟨.num a, mx, av⟩ :: rest) histRows =
      Except.ok
        { statsQuery := statsQueryFor model explore field
          histQuery := some (histQueryFor model explore cf
            (binExpression field.name (binBounds (.num a) mx)))
          result := { align := [.left, .right]
                      data := [[{ v := .str "Min" }, distCell (.num a)],
                               [{ v := .str "Max" }, distCell mx],
                               [{ v := .str "Average" }, distCell av]]
                      max := [none, none]
                      aux := none
                      histogram := some ⟨histBinsAux histRows (binBounds (.num a) mx) 0⟩ } } := by
    simp [getDistribution, hta, hcf]
  refine ⟨_, hrun, rfl, ⟨_, rfl, rfl⟩, ?_⟩
  intro h hh j hj hnone
  have hh2 : h = ⟨histBinsAux histRows (binBounds (.num a) mx) 0⟩ := by
    simpa [eq_comm] using hh
  subst hh2
  show ((histBinsAux histRows (binBounds (.num a) mx) 0).getD j default).value = .num 0
  rw [binBounds, histBins_getD histRows _ _ 20 0 j hj]
  show histCount histRows (0 + j) = .num 0
  rw [Nat.zero_add]
  exact histCount_eq_zero histRows j hnone

/-- Witness for C10: a truthy minimum, two returned bin rows, and an
unmatched bin index 5 whose count is zero-filled. -/
theorem getDistribution_limit_ten_zero_fill_witness :
    countFieldForField sampleExplore samplePriceField = some sampleCountMeasure
    ∧ (10 : ℚ) ≠ 0
    ∧ (∃ tr : DistTrace,
        getDistribution sampleModel sampleExplore samplePriceField
            [⟨.num 10, .num 30, .num 20⟩] [⟨.num 0, .num 7⟩, ⟨.num 19, .num 3⟩] = Except.ok tr
        ∧ tr.statsQuery.limit = some 10
        ∧ (∃ q, tr.histQuery = some q ∧ q.limit = some 10)
        ∧ ∀ h : Histogram, tr.result.histogram = some h →
            ∀ j, j < 20 →
              (∀ r ∈ [(⟨.num 0, .num 7⟩ : HistRow), ⟨.num 19, .num 3⟩],
                looseEqNat r.binValue j = false) →
              (h.data.getD j default).value = .num 0) := by
  exact ⟨by decide, by norm_num,
    getDistribution_limit_ten_zero_fill sampleModel sampleExplore samplePriceField
      sampleCountMeasure 10 (.num 30) (.num 20) [] [⟨.num 0, .num 7⟩, ⟨.num 19, .num 3⟩]
      (by decide) (by norm_num)⟩

/-- Claim C6 counterexample: a Values request for a measure-category field
(so `canGetTopValues` is false — the request kind is not computable for the
field) is not rejected: because only the companion count lookup is ever
exercised, query construction succeeds and the query is issued, with no error
raised before it. -/
theorem getTopValues_no_validation_cex :
    canGetTopValues sampleModel sampleExplore sampleMeasureField = false
    ∧ getTopValuesQuery sampleModel sampleExplore sampleMeasureField =
        Except.ok (topValuesQueryFor sampleModel sampleExplore sampleMeasureField
          sampleCountMeasure) := by
  exact ⟨by decide, by rfl⟩

/-- Claim C6 (amended): the core performs no capability validation.  A Values
request for a field with no companion count field does fail before any query
is issued, but with an incidental `TypeError` (reading `.name` of the
undefined count field) rather than a descriptive error; a request whose field
merely has the wrong category or type while a companion count field exists is
not rejected — its query is built and issued.  The dispatcher never
substitutes a different summary kind: on a cache miss, a Values request's
outcome is exactly the top-values computation and a Distribution request's
outcome exactly the distribution computation. -/
theorem chartQuery_staging_spec :
    (∀ (model : LookmlModel) (explore : Explore) (field : ExploreField),
      countFieldForField explore field = none →
      getTopValuesQuery model explore field =
        Except.error "TypeError: cannot read property name of undefined")
    ∧ (∀ (model : LookmlModel) (explore : Explore) (field cf : ExploreField),
      countFieldForField explore field = some cf →
      getTopValuesQuery model explore field =
        Except.ok (topValuesQueryFor model explore field cf))
    ∧ (∀ (req : ChartRequest) (c : List (String × SimpleResult)) (tvResp : TVResponse)
        (statsRows : List StatsRow) (histRows : List HistRow),
      req.kind = ChartKind.Values → c.lookup (serializeRequest req) = none →
      (runChartQuery req c tvResp statsRows histRows).2.2 =
        getTopValuesFull req.model req.explore req.field tvResp)
    ∧ (∀ (req : ChartRequest) (c : List (String × SimpleResult)) (tvResp : TVResponse)
        (statsRows : List StatsRow) (histRows : List HistRow),
      req.kind = ChartKind.Distribution → c.lookup (serializeRequest req) = none →
      (runChartQuery req c tvResp statsRows histRows).2.2 =
        (getDistribution req.model req.explore req.field statsRows histRows).map
          DistTrace.result) := by
  refine ⟨?_, ?_, ?_, ?_⟩
  · intro model explore field h
    simp [getTopValuesQuery, h]
  · intro model explore field cf h
    simp [getTopValuesQuery, h]
  · intro req c tvResp statsRows histRows hkind hmiss
    obtain ⟨kind, m, e, f⟩ := req
    cases hkind
    cases hres : getTopValuesFull m e f tvResp <;>
      simp [runChartQuery, localCache, cacheMissRun, hmiss, hres]
  · intro req c tvResp statsRows histRows hkind hmiss
    obtain ⟨kind, m, e, f⟩ := req
    cases hkind
    cases hres : (getDistribution m e f statsRows histRows).map DistTrace.result <;>
      simp [runChartQuery, localCache, cacheMissRun, hmiss, hres]

/-- Witness for the amended C6: the missing-count `TypeError` before any
query, a well-formed query when the count exists, and the two dispatch
routes on a fresh cache. -/
theorem chartQuery_staging_spec_witness :
    (countFieldForField emptyExplore samplePriceField = none
      ∧ getTopValuesQuery sampleModel emptyExplore samplePriceField =
          Except.error "TypeError: cannot read property name of undefined")
    ∧ (countFieldForField sampleExplore samplePriceField = some sampleCountMeasure
      ∧ getTopValuesQuery sampleModel sampleExplore samplePriceField =
          Except.ok (topValuesQueryFor sampleModel sampleExplore samplePriceField
            sampleCountMeasure))
    ∧ ((runChartQuery ⟨.Values, sampleModel, sampleExplore, samplePriceField⟩ []
          ⟨[], .num 0⟩ [] []).2.2 =
        getTopValuesFull sampleModel sampleExplore samplePriceField ⟨[], .num 0⟩)
    ∧ ((runChartQuery ⟨.Distribution, sampleModel, sampleExplore, samplePriceField⟩ []
          ⟨[], .num 0⟩ [] []).2.2 =
        (getDistribution sampleModel sampleExplore samplePriceField [] []).map
          DistTrace.result) := by
  refine ⟨⟨by decide, ?_⟩, ⟨by decide, ?_⟩, ?_, ?_⟩
  · exact chartQuery_staging_spec.1 sampleModel emptyExplore samplePriceField (by decide)
  · exact chartQuery_staging_spec.2.1 sampleModel sampleExplore samplePriceField
      sampleCountMeasure (by decide)
  · exact chartQuery_staging_spec.2.2.1 ⟨.Values, sampleModel, sampleExplore, samplePriceField⟩
      [] ⟨[], .num 0⟩ [] [] rfl rfl
  · exact chartQuery_staging_spec.2.2.2 ⟨.Distribution, sampleModel, sampleExplore,
      samplePriceField⟩ [] ⟨[], .num 0⟩ [] [] rfl rfl
